import Mathlib

/-!
# Verification of the csvtolite loader (src/main.rs)

Shallow embedding of the schema-probing, schema-reconciliation and
transactional bulk-loading core of the program, translated from
`src/main.rs`.  CSV records are modelled as already-parsed lists of
string fields (the `csv` crate reader is out of scope for the proved
claims); SQLite interactions are modelled by explicit state passing over
a small table store, with failure-injection oracles standing in for the
fallible `prepare` / `query` / `execute` / `commit` / `rollback` calls.
-/

set_option autoImplicit false

namespace CsvToLite

/-- The parsing / loading options read from the `CliCfg` struct
(`src/main.rs` lines 42-111); only the fields the core logic consults
are modelled. -/
structure CliCfg where
  headeron : Bool
  sanity_sample : Nat
  ignore_field_count : Bool
  overwrite_tables : Bool
deriving DecidableEq, Repr

/-- One column descriptor, as in `struct Field` (`src/main.rs` 207-212). -/
structure Field where
  pos : Nat
  name : String
  db_type : String
deriving DecidableEq, Repr

/-- One parsed CSV record: an ordered list of string fields. -/
abbrev Record := List String

/-- The error cases `detect_file_schema` can return
(`src/main.rs` 424, 435, 443), carrying the discriminating data of the
formatted `anyhow!` messages. -/
inductive ProbeError where
  /-- "Field count inconsistency: line .. field count .. expected field count .." -/
  | fieldCountInconsistency (line found expected : Nat)
  /-- "Did not field headers so cannot schema-check on file" -/
  | emptyHeader
  /-- "Did not find anything (empty?) to schema-check on file" -/
  | emptySchema
deriving DecidableEq, Repr

/-- The header branch of `detect_file_schema` (`src/main.rs` 409-416):
one `Field` per header cell, positions by enumeration, type `text`. -/
def headerFields (rec : Record) : List Field :=
  rec.enum.map (fun p => ⟨p.1, p.2, "text"⟩)

/-- The no-header branch of `detect_file_schema` (`src/main.rs` 448-454):
synthesized names `f0, f1, ...`, all typed `text`. -/
def synthFields (n : Nat) : List Field :=
  (List.range n).map (fun i => ⟨i, "f" ++ toString i, "text"⟩)

/-- The record loop of `detect_file_schema` (`src/main.rs` 403-431),
state = (line_count, header_field_count, schema).  Note the loop's exact
conditions: the sample break `line_count > sanity_sample` precedes the
width check, the width check fires when
`!ignore_field_count || record.len() != header_field_count`, and an
unconditional `line_count > 10` break ends each iteration. -/
def probeLoop (cfg : CliCfg) (sanity : Nat) :
    List Record → Nat → Nat → List Field → Except ProbeError (Nat × List Field)
  | [], _lc, hfc, sch => .ok (hfc, sch)
  | rec :: rest, lc, hfc, sch =>
    let lc' := lc + 1
    if lc' = 1 then
      let sch' := if cfg.headeron then headerFields rec else sch
      let hfc' := rec.length
      if lc' > 10 then .ok (hfc', sch')
      else probeLoop cfg sanity rest lc' hfc' sch'
    else if lc' > sanity then .ok (hfc, sch)
    else if cfg.ignore_field_count = false ∨ rec.length ≠ hfc then
      .error (.fieldCountInconsistency lc' rec.length hfc)
    else if lc' > 10 then .ok (hfc, sch)
    else probeLoop cfg sanity rest lc' hfc sch

/-- Translation of `detect_file_schema` (`src/main.rs` 373-459) over the parsed records
of the file: effective sample is `sanity_sample + 1` when `headeron`;
after the loop, a zero `header_field_count` is the empty-schema error,
otherwise the header schema is returned as-is or names are synthesized. -/
def detect_file_schema (cfg : CliCfg) (records : List Record) :
    Except ProbeError (List Field) :=
  let sanity := if cfg.headeron then cfg.sanity_sample + 1 else cfg.sanity_sample
  match probeLoop cfg sanity records 0 0 [] with
  | .error e => .error e
  | .ok (hfc, sch) =>
    if cfg.headeron then
      if hfc = 0 then .error .emptyHeader else .ok sch
    else
      if hfc = 0 then .error .emptySchema
      else .ok (sch ++ synthFields hfc)

/-! ## Table schema inspector / overwrite drop (`schema`, `src/main.rs` 214-249) -/

/-- One table of the SQLite store: its column schema and its committed rows. -/
structure Table where
  schema : List Field
  rows : List Record
deriving DecidableEq, Repr

/-- The SQLite store: an association list from table name to table. -/
structure DB where
  tables : List (String × Table)
deriving DecidableEq, Repr

/-- Look a table up by name. -/
def DB.lookup (db : DB) (t : String) : Option Table :=
  (db.tables.find? (fun p => p.1 == t)).map Prod.snd

/-- Result of `pragma table_info(t)`: the column rows SQLite reports — empty for an
absent table (the pragma yields zero rows, it does not fail). -/
def DB.tableInfo (db : DB) (t : String) : List Field :=
  match db.lookup t with
  | none => []
  | some tbl => tbl.schema

/-- Effect of `drop table t`: remove the binding for `t`. -/
def DB.dropTable (db : DB) (t : String) : DB :=
  ⟨db.tables.filter (fun p => p.1 != t)⟩

/-- Outcome of preparing and stepping the single SQL statement `schema`
issues (`drop table t` under overwrite, else `pragma table_info(t)`):
either `conn.prepare` fails, or `stmt.query` / `rows.next` fails after a
successful prepare, or the statement runs and yields these rows. -/
inductive SqlOutcome where
  | prepFail (e : String)
  | stepFail (e : String)
  | rows (rs : List Field)
deriving DecidableEq, Repr

/-- The error-handling skeleton of `schema` (`src/main.rs` 224-248): a
`prepare` failure is swallowed (empty result) exactly when
`overwrite_tables` is set, otherwise wrapped and returned; a failure
while stepping the prepared statement is propagated by `?` in both
modes; otherwise the fetched rows are the result. -/
def schema (cfg : CliCfg) (outcome : SqlOutcome) : Except String (List Field) :=
  match outcome with
  | .prepFail e =>
    if cfg.overwrite_tables then .ok []
    else .error ("error during schema check: " ++ e)
  | .stepFail e => .error e
  | .rows rs => .ok rs

/-- How a healthy SQLite store answers the statement `schema` issues:
under overwrite, preparing `drop table t` fails iff `t` is absent, and a
successful drop removes the table and yields no rows; otherwise
`pragma table_info(t)` yields the table's columns (none if absent). -/
def dbOutcome (cfg : CliCfg) (db : DB) (t : String) : SqlOutcome × DB :=
  if cfg.overwrite_tables then
    match db.lookup t with
    | none => (.prepFail "no such table", db)
    | some _ => (.rows [], db.dropTable t)
  else
    (.rows (db.tableInfo t), db)

/-- The `schema` function run against a healthy store: statement outcome fed through
the error-handling skeleton, next to the store it leaves behind. -/
def run_schema (cfg : CliCfg) (db : DB) (t : String) :
    Except String (List Field) × DB :=
  let (o, db') := dbOutcome cfg db t
  (schema cfg o, db')

/-! ## Schema reconciliation in `load_file` (`src/main.rs` 331-361) -/

/-- The discriminating data of the `Schema diff ...` errors of
`load_file` (`src/main.rs` 339, 344, 352). -/
inductive SchemaError where
  | fieldCount (table file : Nat)
  | nameMismatch (table file : String)
  | typeMismatch (table file : String)
deriving DecidableEq, Repr

/-- The zip loop of `load_file` (`src/main.rs` 341-360): walk the shared
positions, failing on the first name difference, then type difference. -/
def checkPairs : List (Field × Field) → Except SchemaError Unit
  | [] => .ok ()
  | (t, f) :: rest =>
    if t.name ≠ f.name then .error (.nameMismatch t.name f.name)
    else if t.db_type ≠ f.db_type then .error (.typeMismatch t.db_type f.db_type)
    else checkPairs rest

/-- The validate branch of `load_file` (`src/main.rs` 334-361), taken
when the store schema is non-empty: a length difference fails unless
`ignore_field_count`, then shared positions are compared pairwise. -/
def validate_schema (cfg : CliCfg) (table_schema file_schema : List Field) :
    Except SchemaError Unit :=
  if cfg.ignore_field_count = false ∧ table_schema.length ≠ file_schema.length then
    .error (.fieldCount table_schema.length file_schema.length)
  else checkPairs (table_schema.zip file_schema)

/-! ## `create_table` (`src/main.rs` 579-591) -/

/-- The DDL text `create_table` builds.  The source takes
`f_sch.len() - 1` leading columns and then unwraps
`f_sch.iter().rev().nth(0)`; that unwrap panics on an empty schema,
modelled by returning `none`. -/
def create_table (tablename : String) (f_sch : List Field) : Option String :=
  match f_sch.getLast? with
  | none => none
  | some last =>
    let cols := (f_sch.take (f_sch.length - 1)).foldl
      (fun acc f => acc ++ "\t[" ++ f.name ++ "] " ++ f.db_type ++ ",") ""
    some ("create table " ++ tablename ++ " (\n" ++ cols ++
      "\t[" ++ last.name ++ "] " ++ last.db_type ++ "\n);")

/-! ## Transactional bulk load: `write_to_db` (`src/main.rs` 483-577) -/

/-- The error cases of `write_to_db`'s record loop and commit:
the row-width error (`src/main.rs` 554), a failing `stmt.execute`
(`src/main.rs` 566, via `?`), and a failing `commit` (`src/main.rs` 573). -/
inductive WriteError where
  | rowWidth (line expected found : Nat)
  | insertFail (line : Nat)
  | commitFail
deriving DecidableEq, Repr

/-- Failure-injection oracles for the store during one `write_to_db`
call: whether the n-th executed insert fails (n = inserts already
executed), whether the final `commit` fails, and whether the scope
guard's own `rollback` fails. -/
structure StoreFaults where
  insertFails : Nat → Bool
  commitFails : Bool
  rollbackFails : Bool

/-- The record loop of `write_to_db` (`src/main.rs` 545-572), state =
(line_count, pending uncommitted rows, row_count, field_count): record 1
is skipped exactly when `headeron`; otherwise the width check
`!ignore_field_count && record.len() != f_sch.len()` fails the file, a
failing `stmt.execute` fails the file, and a successful insert appends
the record's fields (the bound parameters) to the open transaction. -/
def writeLoop (cfg : CliCfg) (ins : Nat → Bool) (width : Nat) :
    List Record → Nat → List Record → Nat → Nat →
    Except WriteError (List Record × Nat × Nat)
  | [], _lc, pending, rows, fieldsw => .ok (pending, rows, fieldsw)
  | rec :: rest, lc, pending, rows, fieldsw =>
    let lc' := lc + 1
    if lc' = 1 ∧ cfg.headeron = true then
      writeLoop cfg ins width rest lc' pending rows fieldsw
    else if cfg.ignore_field_count = false ∧ rec.length ≠ width then
      .error (.rowWidth lc' width rec.length)
    else if ins pending.length then
      .error (.insertFail lc')
    else
      writeLoop cfg ins width rest lc' (pending ++ [rec]) (rows + 1) (fieldsw + width)

/-- The log lines the scope guard emits when it fires (`src/main.rs`
532-539): it always logs that it is rolling back, and a failing rollback
is itself only logged. -/
def rollbackLog (rollbackFails : Bool) : List String :=
  if rollbackFails then
    ["rollback in defer for write_to_db", "There was a problem with deferal rollback"]
  else
    ["rollback in defer for write_to_db"]

/-- Result of one `write_to_db` call: the returned
`(row_count, field_count)` or error, the table's committed rows
afterwards, and what the scope guard logged. -/
structure WriteResult where
  outcome : Except WriteError (Nat × Nat)
  table : List Record
  log : List String
deriving Repr

/-- Translation of `write_to_db` (`src/main.rs` 483-577): begin a transaction, run the
record loop, then commit and disarm the guard.  Any loop error returns
with the transaction rolled back by the guard (committed rows
unchanged); a failing commit likewise leaves the guard armed and the
committed rows unchanged; only a successful commit publishes the pending
rows and returns the counts. -/
def write_to_db (cfg : CliCfg) (faults : StoreFaults) (f_sch : List Field)
    (committed : List Record) (records : List Record) : WriteResult :=
  match writeLoop cfg faults.insertFails f_sch.length records 0 [] 0 0 with
  | .error e => ⟨.error e, committed, rollbackLog faults.rollbackFails⟩
  | .ok (pending, rows, fieldsw) =>
    if faults.commitFails then
      ⟨.error .commitFail, committed, rollbackLog faults.rollbackFails⟩
    else
      ⟨.ok (rows, fieldsw), committed ++ pending, []⟩

/-- The records `write_to_db` treats as data: all of them, except the
first when `headeron` (`src/main.rs` 547-549). -/
def dataRecords (cfg : CliCfg) (records : List Record) : List Record :=
  if cfg.headeron then records.tail else records

/-! ## The multi-file loop of `import_csv` (`src/main.rs` 262-264) -/

/-- The `for pathbuf in &CLI.files { load_file(..)? }` loop: `load` is
one file's load against the world state `σ` (its side effects and
possible error); the `?` operator returns the first error immediately,
skipping every remaining file. -/
def import_loop {σ : Type} (load : String → σ → σ × Option String) :
    List String → σ → σ × Option String
  | [], st => (st, none)
  | f :: rest, st =>
    match load f st with
    | (st', none) => import_loop load rest st'
    | (st', some e) => (st', some e)

/-- Observable trace of a run for the multi-file claims: which files the
loader was invoked on, and which files' transactions committed. -/
structure RunState where
  attempted : List String
  committed : List String
deriving DecidableEq, Repr

/-- A concrete per-file load for the multi-file counterexample: every
invoked file is recorded as attempted; the file named `bad` fails, every
other file commits. -/
def demoLoad (f : String) (st : RunState) : RunState × Option String :=
  let st' : RunState := ⟨st.attempted ++ [f], st.committed⟩
  if f = "bad" then (st', some "load failed")
  else (⟨st'.attempted, st'.committed ++ [f]⟩, none)

/-! ## Helper lemmas -/

/-- From the second record on, the probe loop never changes the
reference width or the accumulated schema: a successful run from
`line_count ≥ 1` returns the state it was entered with. -/
lemma probeLoop_ok_of_ge_one (cfg : CliCfg) (sanity : Nat) :
    ∀ (recs : List Record) (lc hfc : Nat) (sch : List Field)
      (out : Nat × List Field), 1 ≤ lc →
      probeLoop cfg sanity recs lc hfc sch = .ok out → out = (hfc, sch) := by
  intro recs
  induction recs with
  | nil =>
    intro lc hfc sch out _ h
    simp only [probeLoop] at h
    exact (Except.ok.inj h).symm
  | cons rec rest ih =>
    intro lc hfc sch out hlc h
    simp only [probeLoop] at h
    rw [if_neg (by omega : ¬ lc + 1 = 1)] at h
    by_cases h2 : lc + 1 > sanity
    · rw [if_pos h2] at h
      exact (Except.ok.inj h).symm
    · rw [if_neg h2] at h
      by_cases h3 : cfg.ignore_field_count = false ∨ rec.length ≠ hfc
      · rw [if_pos h3] at h
        cases h
      · rw [if_neg h3] at h
        by_cases h4 : lc + 1 > 10
        · rw [if_pos h4] at h
          exact (Except.ok.inj h).symm
        · rw [if_neg h4] at h
          exact ih (lc + 1) hfc sch out (by omega) h

/-- Shape of every successful probe: the file is non-empty, the first
record is non-empty, and the returned schema is the header-derived or
synthesized one for that first record. -/
lemma detect_ok_shape (cfg : CliCfg) (records : List Record) (sch : List Field)
    (h : detect_file_schema cfg records = .ok sch) :
    ∃ rec rest, records = rec :: rest ∧ rec.length ≠ 0 ∧
      sch = (if cfg.headeron then headerFields rec else synthFields rec.length) := by
  cases records with
  | nil =>
    cases hH : cfg.headeron <;>
      simp [detect_file_schema, probeLoop, hH] at h
  | cons rec rest =>
    refine ⟨rec, rest, rfl, ?_⟩
    have hstep :
        probeLoop cfg (if cfg.headeron then cfg.sanity_sample + 1 else cfg.sanity_sample)
          (rec :: rest) 0 0 [] =
        probeLoop cfg (if cfg.headeron then cfg.sanity_sample + 1 else cfg.sanity_sample)
          rest 1 rec.length (if cfg.headeron then headerFields rec else []) := by
      simp [probeLoop]
    rw [detect_file_schema, hstep] at h
    cases hres : probeLoop cfg
        (if cfg.headeron then cfg.sanity_sample + 1 else cfg.sanity_sample)
        rest 1 rec.length (if cfg.headeron then headerFields rec else []) with
    | error e => rw [hres] at h; cases h
    | ok out =>
      have hout := probeLoop_ok_of_ge_one cfg _ rest 1 rec.length _ out (by omega) hres
      rw [hres, hout] at h
      cases hH : cfg.headeron with
      | false =>
        simp only [hH, if_false, Bool.false_eq_true] at h ⊢
        by_cases hz : rec.length = 0
        · rw [if_pos hz] at h; cases h
        · rw [if_neg hz] at h
          exact ⟨hz, by simpa using (Except.ok.inj h).symm⟩
      | true =>
        simp only [hH, if_true] at h ⊢
        by_cases hz : rec.length = 0
        · rw [if_pos hz] at h; cases h
        · rw [if_neg hz] at h
          exact ⟨hz, (Except.ok.inj h).symm⟩

lemma headerFields_length (rec : Record) : (headerFields rec).length = rec.length := by
  simp [headerFields]

lemma synthFields_length (n : Nat) : (synthFields n).length = n := by
  simp [synthFields]

/-- The probe-loop width check against the pairwise comparison. -/
lemma checkPairs_ok_iff (l : List (Field × Field)) :
    checkPairs l = .ok () ↔
      ∀ p ∈ l, p.1.name = p.2.name ∧ p.1.db_type = p.2.db_type := by
  induction l with
  | nil => simp [checkPairs]
  | cons hd tl ih =>
    obtain ⟨t, f⟩ := hd
    by_cases h1 : t.name = f.name
    · by_cases h2 : t.db_type = f.db_type
      · simp [checkPairs, h1, h2, ih]
      · simp [checkPairs, h1, h2]
    · simp [checkPairs, h1]

/-- If a table is absent, dropping it leaves the store unchanged. -/
lemma dropTable_of_absent (db : DB) (t : String) (h : db.lookup t = none) :
    db.dropTable t = db := by
  have hfind : db.tables.find? (fun p => p.1 == t) = none := by
    unfold DB.lookup at h
    exact Option.map_eq_none'.mp h
  have hall := List.find?_eq_none.mp hfind
  unfold DB.dropTable
  cases db with
  | mk tables =>
    simp only
    congr 1
    refine List.filter_eq_self.mpr ?_
    intro p hp
    have := hall p hp
    simpa [bne] using this

/-! ## Claim theorems -/

/-- C1 (code bug): the probe-time width check at `src/main.rs` 423 reads
`!ignore_field_count || record.len() != header_field_count`, so with
`ignore_field_count` unset it fails on a sampled record whose field
count EQUALS the reference width: here both records have 2 fields yet
probing fails, reporting found = expected = 2.  The claim (fail iff the
count is unequal and the option unset) describes the intended `&&`. -/
theorem probe_width_check_fires_on_equal_counts :
    detect_file_schema ⟨false, 2, false, false⟩ [["a", "b"], ["c", "d"]] =
      .error (.fieldCountInconsistency 2 2 2) := rfl

/-- C3 (code bug): with `sanity_sample = 0` the loop's break
`line_count > sanity_sample` fires at the second record before any width
comparison, so probing never examines past the first record — whatever
the rest of the file holds (here a record of different width is
accepted).  The option's own doc says "zero means all". -/
theorem probe_sample_zero_stops_after_first_record (rest : List Record)
    (ig ov : Bool) :
    detect_file_schema ⟨false, 0, ig, ov⟩ (["a", "b"] :: rest) =
      .ok (synthFields 2) := by
  cases rest with
  | nil => rfl
  | cons r rs => rfl

/-- C5 (confirmed): reconciliation of a probed schema against a
non-empty store schema is positional — it succeeds iff the lengths agree
(or `ignore_field_count` is set) and every shared position agrees on
name and declared type; in particular the reordered pair
`[a,b]` vs `[b,a]` fails with a name mismatch for every configuration. -/
theorem reconcile_positional_iff :
    (∀ (cfg : CliCfg) (ts fs : List Field),
        validate_schema cfg ts fs = .ok () ↔
          ((ts.length = fs.length ∨ cfg.ignore_field_count = true) ∧
           ∀ p ∈ ts.zip fs, p.1.name = p.2.name ∧ p.1.db_type = p.2.db_type)) ∧
    (∀ cfg : CliCfg,
        validate_schema cfg [⟨0, "a", "text"⟩, ⟨1, "b", "text"⟩]
            [⟨0, "b", "text"⟩, ⟨1, "a", "text"⟩] =
          .error (.nameMismatch "a" "b")) := by
  constructor
  · intro cfg ts fs
    unfold validate_schema
    by_cases hc : cfg.ignore_field_count = false ∧ ts.length ≠ fs.length
    · rw [if_pos hc]
      constructor
      · intro h; cases h
      · rintro ⟨h1 | h1, _⟩
        · exact absurd h1 hc.2
        · rw [hc.1] at h1; cases h1
    · rw [if_neg hc, checkPairs_ok_iff]
      constructor
      · intro hp
        refine ⟨?_, hp⟩
        by_cases hig : cfg.ignore_field_count = true
        · exact Or.inr hig
        · left
          by_contra hlen
          exact hc ⟨Bool.not_eq_true _ ▸ hig, hlen⟩
      · rintro ⟨_, hp⟩; exact hp
  · intro cfg
    have h2 : ¬ (cfg.ignore_field_count = false ∧
        ([⟨0, "a", "text"⟩, ⟨1, "b", "text"⟩] : List Field).length ≠
          ([⟨0, "b", "text"⟩, ⟨1, "a", "text"⟩] : List Field).length) := by
      simp
    rw [validate_schema, if_neg h2]
    rfl

/-- Witness for C5: two identical one-column schemas reconcile. -/
theorem reconcile_positional_iff_witness :
    validate_schema ⟨false, 0, false, false⟩ [⟨0, "a", "text"⟩]
      [⟨0, "a", "text"⟩] = .ok () :=
  (reconcile_positional_iff.1 ⟨false, 0, false, false⟩ [⟨0, "a", "text"⟩]
      [⟨0, "a", "text"⟩]).mpr ⟨Or.inl rfl, by decide⟩

/-- C6 counterexample: a header-only file with `headeron` set does NOT
fail — `detect_file_schema` returns the header-derived schema, because
the emptiness test at `src/main.rs` 433-439 only checks
`header_field_count == 0`. -/
theorem probe_header_only_succeeds :
    detect_file_schema ⟨true, 0, false, false⟩ [["a", "b"]] =
      .ok [⟨0, "a", "text"⟩, ⟨1, "b", "text"⟩] := rfl

/-- C6 (amended): probing fails with the empty-schema error on a file
yielding zero records (for both header modes), but a header-only file
with `headeron` set succeeds, returning the header-derived schema. -/
theorem probe_empty_error_characterization :
    (∀ cfg : CliCfg,
        detect_file_schema cfg [] =
          .error
            (if cfg.headeron then ProbeError.emptyHeader
             else ProbeError.emptySchema)) ∧
    (∀ rec : Record, rec ≠ [] → ∀ (n : Nat) (ig ov : Bool),
        detect_file_schema ⟨true, n, ig, ov⟩ [rec] = .ok (headerFields rec)) := by
  constructor
  · intro cfg
    cases hH : cfg.headeron <;> simp [detect_file_schema, probeLoop, hH]
  · intro rec hne n ig ov
    have hlen : rec.length ≠ 0 := fun hz =>
      hne (List.eq_nil_of_length_eq_zero hz)
    simp [detect_file_schema, probeLoop, hlen]

/-- Witness for C6's amended claim: a one-record header-only file. -/
theorem probe_empty_error_characterization_witness :
    detect_file_schema ⟨true, 5, false, false⟩ [["x"]] =
      .ok (headerFields ["x"]) :=
  probe_empty_error_characterization.2 ["x"] (by decide) 5 false false

/-- C10 (confirmed): every schema that probing returns successfully is
non-empty, so `create_table` — which takes `len - 1` leading columns
and unwraps the last — never hits its panicking unwrap on a probed
schema. -/
theorem probed_schema_nonempty (cfg : CliCfg) (records : List Record)
    (sch : List Field) (t : String)
    (h : detect_file_schema cfg records = .ok sch) :
    sch ≠ [] ∧ (create_table t sch).isSome := by
  obtain ⟨rec, rest, _, hlen, hsch⟩ := detect_ok_shape cfg records sch h
  have hne : sch ≠ [] := by
    intro hnil
    rw [hnil] at hsch
    cases hH : cfg.headeron with
    | true =>
      rw [hH, if_pos rfl] at hsch
      have := headerFields_length rec
      rw [← hsch] at this
      exact hlen this.symm
    | false =>
      rw [hH] at hsch
      simp only [Bool.false_eq_true, if_false] at hsch
      have := synthFields_length rec.length
      rw [← hsch] at this
      exact hlen this.symm
  refine ⟨hne, ?_⟩
  cases hlast : sch.getLast? with
  | none => exact absurd (List.getLast?_eq_none_iff.mp hlast) hne
  | some last => simp [create_table, hlast]

/-- Witness for C10: a one-record, one-column file probes to `[f0]`,
and the create-table DDL for it exists. -/
theorem probed_schema_nonempty_witness :
    synthFields 1 ≠ [] ∧ (create_table "t" (synthFields 1)).isSome :=
  probed_schema_nonempty ⟨false, 0, false, false⟩ [["a"]] (synthFields 1) "t" rfl

/-- C7 counterexample: in overwrite mode a failure while EXECUTING the
prepared `drop table` statement (`stmt.query(..)?` at `src/main.rs` 237)
is propagated, refuting "any failure of the drop step is swallowed". -/
theorem overwrite_drop_exec_failure_propagates :
    schema ⟨false, 0, false, true⟩ (.stepFail "database is locked") =
      .error "database is locked" := rfl

/-- C7 (amended): in overwrite mode the reconciler issues a drop and
returns an empty store schema (so the Create branch is taken) whenever
the drop does not fail at execution: on a healthy store the table is
dropped and `ok []` returned whether or not it existed, and a failure of
the drop's statement preparation (e.g. "no such table") is swallowed;
but a failure while executing the prepared drop is propagated. -/
theorem overwrite_drop_behavior :
    (∀ (h : Bool) (s : Nat) (i : Bool) (db : DB) (t : String),
        run_schema ⟨h, s, i, true⟩ db t = (.ok [], db.dropTable t)) ∧
    (∀ (h : Bool) (s : Nat) (i : Bool) (e : String),
        schema ⟨h, s, i, true⟩ (.prepFail e) = .ok []) ∧
    (∀ (cfg : CliCfg) (e : String), schema cfg (.stepFail e) = .error e) := by
  refine ⟨?_, fun _ _ _ _ => rfl, fun _ _ => rfl⟩
  intro h s i db t
  unfold run_schema dbOutcome
  cases hl : db.lookup t with
  | none => simp [hl, schema, dropTable_of_absent db t hl]
  | some tbl => simp [hl, schema]

/-- C9 (confirmed): without overwrite, the schema inspector run against
a healthy store never fails — an absent table yields the empty schema
(and leaves the store untouched), a present table yields its columns —
while metadata-query failures (prepare or step) are propagated. -/
theorem schema_inspector_absent_table (h : Bool) (s : Nat) (i : Bool)
    (db : DB) (t : String) :
    (db.lookup t = none → run_schema ⟨h, s, i, false⟩ db t = (.ok [], db)) ∧
    run_schema ⟨h, s, i, false⟩ db t = (.ok (db.tableInfo t), db) ∧
    (∀ e : String,
        schema ⟨h, s, i, false⟩ (.prepFail e) =
          .error ("error during schema check: " ++ e)) ∧
    (∀ e : String, schema ⟨h, s, i, false⟩ (.stepFail e) = .error e) := by
  refine ⟨?_, ?_, fun _ => rfl, fun _ => rfl⟩
  · intro hl
    simp [run_schema, dbOutcome, schema, DB.tableInfo, hl]
  · simp [run_schema, dbOutcome, schema]

/-- Witness for C9: the empty store, a missing table name. -/
theorem schema_inspector_absent_table_witness :
    run_schema ⟨false, 0, false, false⟩ ⟨[]⟩ "missing" = (.ok [], ⟨[]⟩) :=
  (schema_inspector_absent_table false 0 false ⟨[]⟩ "missing").1 rfl

/-- C2 counterexample: with a per-file load that fails on the file named
`bad`, the run over `[good1, bad, good2]` invokes the loader on `good1`
and `bad` only — `good2` is never attempted, refuting "the remaining
files in the caller-supplied list are still attempted".  The prior
file's commit is retained. -/
theorem import_skips_files_after_failure :
    (import_loop demoLoad ["good1", "bad", "good2"] ⟨[], []⟩).1.attempted =
        ["good1", "bad"] ∧
    (import_loop demoLoad ["good1", "bad", "good2"] ⟨[], []⟩).2 =
        some "load failed" ∧
    (import_loop demoLoad ["good1", "bad", "good2"] ⟨[], []⟩).1.committed =
        ["good1"] :=
  ⟨rfl, rfl, rfl⟩

/-- C2 (amended): after a prefix of files that load cleanly, the first
failing file's outcome IS the whole run's outcome — its error is
returned at once, the files after it are never processed, and the state
(including the prior files' committed transactions) is exactly the state
the failing file's load left behind. -/
theorem import_aborts_at_first_failure {σ : Type}
    (load : String → σ → σ × Option String)
    (pre : List String) (f : String) (rest : List String) (st : σ)
    (hpre : (import_loop load pre st).2 = none)
    (hf : (load f (import_loop load pre st).1).2 ≠ none) :
    import_loop load (pre ++ f :: rest) st =
      load f (import_loop load pre st).1 := by
  induction pre generalizing st with
  | nil =>
    simp only [List.nil_append, import_loop] at hf ⊢
    cases hlf : load f st with
    | mk st' o =>
      cases o with
      | none => rw [hlf] at hf; exact absurd rfl hf
      | some e => rfl
  | cons g gs ih =>
    simp only [List.cons_append, import_loop] at hpre hf ⊢
    cases hlg : load g st with
    | mk st1 o1 =>
      cases o1 with
      | none =>
        rw [hlg] at hpre hf
        exact ih st1 hpre hf
      | some e =>
        rw [hlg] at hpre
        exact Option.noConfusion hpre

/-- Witness for C2's amended claim: the concrete three-file run. -/
theorem import_aborts_at_first_failure_witness :
    import_loop demoLoad (["good1"] ++ "bad" :: ["good2"])
        (⟨[], []⟩ : RunState) =
      demoLoad "bad" (import_loop demoLoad ["good1"] ⟨[], []⟩).1 :=
  import_aborts_at_first_failure demoLoad ["good1"] "bad" ["good2"] ⟨[], []⟩ rfl
    (by decide)

/-- From `line_count ≥ 1` no remaining record is the header: a
successful loop run appends every remaining record, in order, to the
pending transaction. -/
lemma writeLoop_ok_pending (cfg : CliCfg) (ins : Nat → Bool) (width : Nat) :
    ∀ (recs : List Record) (lc : Nat) (pending : List Record)
      (rows fieldsw : Nat) (p : List Record) (r f : Nat), 1 ≤ lc →
      writeLoop cfg ins width recs lc pending rows fieldsw = .ok (p, r, f) →
      p = pending ++ recs := by
  intro recs
  induction recs with
  | nil =>
    intro lc pending rows fieldsw p r f _ h
    simp only [writeLoop] at h
    simpa using (congrArg Prod.fst (Except.ok.inj h)).symm
  | cons rc rest ih =>
    intro lc pending rows fieldsw p r f hlc h
    simp only [writeLoop] at h
    rw [if_neg (fun hx => absurd hx.1 (by omega))] at h
    by_cases h2 : cfg.ignore_field_count = false ∧ rc.length ≠ width
    · rw [if_pos h2] at h; cases h
    · rw [if_neg h2] at h
      by_cases h3 : ins pending.length = true
      · rw [if_pos h3] at h; cases h
      · rw [if_neg h3] at h
        have := ih (lc + 1) (pending ++ [rc]) (rows + 1) (fieldsw + width)
          p r f (by omega) h
        simpa [List.append_assoc] using this

/-- A successful `write_to_db` loop inserted exactly the data records:
everything, minus the first record when `headeron`. -/
lemma writeLoop_top_pending (cfg : CliCfg) (ins : Nat → Bool) (width : Nat)
    (records : List Record) (p : List Record) (r f : Nat)
    (h : writeLoop cfg ins width records 0 [] 0 0 = .ok (p, r, f)) :
    p = dataRecords cfg records := by
  cases records with
  | nil =>
    simp only [writeLoop] at h
    have := (congrArg Prod.fst (Except.ok.inj h)).symm
    simp only at this
    cases hH : cfg.headeron <;> simp [dataRecords, hH, this]
  | cons rc rest =>
    simp only [writeLoop] at h
    cases hH : cfg.headeron with
    | true =>
      rw [if_pos ⟨trivial, hH⟩] at h
      have := writeLoop_ok_pending cfg ins width rest 1 [] 0 0 p r f
        (by omega) h
      simp [dataRecords, hH, this]
    | false =>
      rw [if_neg (by simp [hH])] at h
      by_cases h2 : cfg.ignore_field_count = false ∧ rc.length ≠ width
      · rw [if_pos h2] at h; cases h
      · rw [if_neg h2] at h
        simp only [List.length_nil] at h
        by_cases h3 : ins 0 = true
        · rw [if_pos h3] at h; cases h
        · rw [if_neg h3] at h
          have := writeLoop_ok_pending cfg ins width rest 1 ([] ++ [rc]) 1
            (0 + width) p r f (by omega) h
          simp only [List.nil_append] at this
          simp [dataRecords, hH, this]

/-- With field-count policing on, a successful loop run from
`line_count ≥ 1` certifies every remaining record's width. -/
lemma writeLoop_ok_allWidth (cfg : CliCfg) (ins : Nat → Bool) (width : Nat)
    (hig : cfg.ignore_field_count = false) :
    ∀ (recs : List Record) (lc : Nat) (pending : List Record)
      (rows fieldsw : Nat) (out : List Record × Nat × Nat), 1 ≤ lc →
      writeLoop cfg ins width recs lc pending rows fieldsw = .ok out →
      ∀ rec ∈ recs, rec.length = width := by
  intro recs
  induction recs with
  | nil =>
    intro lc pending rows fieldsw out _ _ rec hrec
    cases hrec
  | cons rc rest ih =>
    intro lc pending rows fieldsw out hlc h rec hrec
    simp only [writeLoop] at h
    rw [if_neg (fun hx => absurd hx.1 (by omega))] at h
    by_cases h2 : cfg.ignore_field_count = false ∧ rc.length ≠ width
    · rw [if_pos h2] at h; cases h
    · have hrc : rc.length = width := by
        by_contra hne
        exact h2 ⟨hig, hne⟩
      rw [if_neg h2] at h
      by_cases h3 : ins pending.length = true
      · rw [if_pos h3] at h; cases h
      · rw [if_neg h3] at h
        rcases List.mem_cons.mp hrec with hrec | hrec
        · rw [hrec]; exact hrc
        · exact ih (lc + 1) (pending ++ [rc]) (rows + 1) (fieldsw + width)
            out (by omega) h rec hrec

/-- With field-count policing on, a successful `write_to_db` loop
certifies every data record's width. -/
lemma writeLoop_top_allWidth (cfg : CliCfg) (ins : Nat → Bool) (width : Nat)
    (records : List Record) (out : List Record × Nat × Nat)
    (hig : cfg.ignore_field_count = false)
    (h : writeLoop cfg ins width records 0 [] 0 0 = .ok out) :
    ∀ rec ∈ dataRecords cfg records, rec.length = width := by
  cases records with
  | nil =>
    intro rec hrec
    cases hH : cfg.headeron <;> simp [dataRecords, hH] at hrec
  | cons rc rest =>
    intro rec hrec
    simp only [writeLoop] at h
    cases hH : cfg.headeron with
    | true =>
      rw [if_pos ⟨trivial, hH⟩] at h
      simp only [dataRecords, hH, if_true, List.tail_cons] at hrec
      exact writeLoop_ok_allWidth cfg ins width hig rest 1 [] 0 0 _
        (by omega) h rec hrec
    | false =>
      rw [if_neg (by simp [hH])] at h
      by_cases h2 : cfg.ignore_field_count = false ∧ rc.length ≠ width
      · rw [if_pos h2] at h; cases h
      · have hrc : rc.length = width := by
          by_contra hne
          exact h2 ⟨hig, hne⟩
        rw [if_neg h2] at h
        simp only [List.length_nil] at h
        by_cases h3 : ins 0 = true
        · rw [if_pos h3] at h; cases h
        · rw [if_neg h3] at h
          simp only [dataRecords, hH, Bool.false_eq_true, if_false] at hrec
          rcases List.mem_cons.mp hrec with hrec | hrec
          · rw [hrec]; exact hrc
          · exact writeLoop_ok_allWidth cfg ins width hig rest 1 ([] ++ [rc])
              1 (0 + width) _ (by omega) h rec hrec

/-- C4 (confirmed): the bulk load of one file is atomic.  On any error —
a row-width violation anywhere in the file, a failing insert, or a
failing commit — the table keeps exactly its pre-load rows; a Load
Outcome is returned only when the commit succeeded and the guard was
disarmed (nothing logged); the guard's own rollback failure changes
neither the returned error nor the table; and with policing on, a
wrong-width data record anywhere (even the last) forces an error. -/
theorem write_to_db_atomic (cfg : CliCfg) (ins : Nat → Bool) (cf rb : Bool)
    (sch : List Field) (committed records : List Record) :
    ((∃ e, (write_to_db cfg ⟨ins, cf, rb⟩ sch committed records).outcome =
        .error e) →
      (write_to_db cfg ⟨ins, cf, rb⟩ sch committed records).table = committed) ∧
    ((∃ o, (write_to_db cfg ⟨ins, cf, rb⟩ sch committed records).outcome =
        .ok o) →
      cf = false ∧
        (write_to_db cfg ⟨ins, cf, rb⟩ sch committed records).log = []) ∧
    ((write_to_db cfg ⟨ins, cf, rb⟩ sch committed records).outcome =
        (write_to_db cfg ⟨ins, cf, false⟩ sch committed records).outcome ∧
      (write_to_db cfg ⟨ins, cf, rb⟩ sch committed records).table =
        (write_to_db cfg ⟨ins, cf, false⟩ sch committed records).table) ∧
    (cf = true →
      ∃ e, (write_to_db cfg ⟨ins, cf, rb⟩ sch committed records).outcome =
        .error e) ∧
    (cfg.ignore_field_count = false →
      (∃ rec ∈ dataRecords cfg records, rec.length ≠ sch.length) →
      ∃ e, (write_to_db cfg ⟨ins, cf, rb⟩ sch committed records).outcome =
        .error e) := by
  cases hw : writeLoop cfg ins sch.length records 0 [] 0 0 with
  | error e =>
    have hres : write_to_db cfg ⟨ins, cf, rb⟩ sch committed records =
        ⟨.error e, committed, rollbackLog rb⟩ := by
      simp [write_to_db, hw]
    have hres0 : write_to_db cfg ⟨ins, cf, false⟩ sch committed records =
        ⟨.error e, committed, rollbackLog false⟩ := by
      simp [write_to_db, hw]
    rw [hres, hres0]
    exact ⟨fun _ => rfl, fun ⟨o, ho⟩ => Except.noConfusion ho,
      ⟨rfl, rfl⟩, fun _ => ⟨e, rfl⟩, fun _ _ => ⟨e, rfl⟩⟩
  | ok out =>
    obtain ⟨pending, rows, fieldsw⟩ := out
    cases cf with
    | true =>
      have hres : write_to_db cfg ⟨ins, true, rb⟩ sch committed records =
          ⟨.error .commitFail, committed, rollbackLog rb⟩ := by
        simp [write_to_db, hw]
      have hres0 : write_to_db cfg ⟨ins, true, false⟩ sch committed records =
          ⟨.error .commitFail, committed, rollbackLog false⟩ := by
        simp [write_to_db, hw]
      rw [hres, hres0]
      exact ⟨fun _ => rfl, fun ⟨o, ho⟩ => Except.noConfusion ho,
        ⟨rfl, rfl⟩, fun _ => ⟨.commitFail, rfl⟩, fun _ _ => ⟨.commitFail, rfl⟩⟩
    | false =>
      have hres : write_to_db cfg ⟨ins, false, rb⟩ sch committed records =
          ⟨.ok (rows, fieldsw), committed ++ pending, []⟩ := by
        simp [write_to_db, hw]
      have hres0 : write_to_db cfg ⟨ins, false, false⟩ sch committed records =
          ⟨.ok (rows, fieldsw), committed ++ pending, []⟩ := by
        simp [write_to_db, hw]
      rw [hres, hres0]
      refine ⟨fun ⟨e, he⟩ => Except.noConfusion he, fun _ => ⟨rfl, rfl⟩,
        ⟨rfl, rfl⟩, fun hcf => Bool.noConfusion hcf, ?_⟩
      rintro hig ⟨rec, hrec, hne⟩
      exact absurd
        (writeLoop_top_allWidth cfg ins sch.length records
          (pending, rows, fieldsw) hig hw rec hrec) hne

/-- Witness for C4: a commit failure on a clean one-record file leaves
the table empty. -/
theorem write_to_db_atomic_witness :
    (write_to_db ⟨false, 0, false, false⟩ ⟨fun _ => false, true, false⟩
        [⟨0, "f0", "text"⟩] [] [["x"]]).table = [] :=
  (write_to_db_atomic ⟨false, 0, false, false⟩ (fun _ => false) true false
      [⟨0, "f0", "text"⟩] [] [["x"]]).1 ⟨.commitFail, rfl⟩

/-- C8 (confirmed): with `headeron`, the loader never inserts the first
record — whatever the sample size and fault pattern, the table ends
either unchanged (failure) or extended by exactly the data records after
the header. -/
theorem header_record_never_inserted (cfg : CliCfg) (ins : Nat → Bool)
    (cf rb : Bool) (sch : List Field) (committed records : List Record)
    (h : cfg.headeron = true) :
    (write_to_db cfg ⟨ins, cf, rb⟩ sch committed records).table = committed ∨
    (write_to_db cfg ⟨ins, cf, rb⟩ sch committed records).table =
      committed ++ records.tail := by
  cases hw : writeLoop cfg ins sch.length records 0 [] 0 0 with
  | error e => left; simp [write_to_db, hw]
  | ok out =>
    obtain ⟨pending, rows, fieldsw⟩ := out
    cases cf with
    | true => left; simp [write_to_db, hw]
    | false =>
      right
      have hp := writeLoop_top_pending cfg ins sch.length records
        pending rows fieldsw hw
      simp only [write_to_db, hw]
      rw [hp]
      simp [dataRecords, h]

/-- Witness for C8: a two-record file with a header loads only the
second record. -/
theorem header_record_never_inserted_witness :
    (write_to_db ⟨true, 0, false, false⟩ ⟨fun _ => false, false, false⟩
        [⟨0, "a", "text"⟩] [] [["h"], ["1"]]).table = [] ∨
    (write_to_db ⟨true, 0, false, false⟩ ⟨fun _ => false, false, false⟩
        [⟨0, "a", "text"⟩] [] [["h"], ["1"]]).table =
      [] ++ [["h"], ["1"]].tail :=
  header_record_never_inserted ⟨true, 0, false, false⟩ (fun _ => false)
    false false [⟨0, "a", "text"⟩] [] [["h"], ["1"]] rfl

end CsvToLite
